import Mathlib

/-!
Verification development for the swimjournal-app analyze endpoint.

The core under study is the local deterministic parser of `api/analyze.js`
(the revision without LLM delegation): line splitting, a section state
machine, a rep-by-distance yardage extractor, a stroke classifier and the
aggregation into totals and percentage maps.  The retry helper
`fetchWithRetry` and the request-validation prefix of the handlers are
embedded as well.
-/

namespace SwimJournal

/-- ASCII whitespace, modelling the whitespace class of JS `trim` and
regex `\s` for the characters that can occur in this pipeline. -/
def isWS (c : Char) : Bool :=
  c = ' ' || c = '\t' || c = '\n' || c = '\r' || c = '\x0b' || c = '\x0c'

/-- Trim whitespace from both ends of a character list (JS `String.trim`). -/
def trimChars (s : List Char) : List Char :=
  ((s.dropWhile isWS).reverse.dropWhile isWS).reverse

/-- Split a character stream at every `\r\n` or `\n` (JS `split(/\r?\n/)`).
A lone `\r` is not a separator. -/
def splitLinesAux : List Char → List Char → List (List Char)
  | [], acc => [acc.reverse]
  | '\r' :: '\n' :: rest, acc => acc.reverse :: splitLinesAux rest []
  | '\n' :: rest, acc => acc.reverse :: splitLinesAux rest []
  | c :: rest, acc => splitLinesAux rest (c :: acc)

/-- `text.split(/\r?\n/).map(l => l.trim()).filter(Boolean)` from the
handler: the ordered list of trimmed non-empty lines. -/
def linesOf (text : String) : List (List Char) :=
  ((splitLinesAux text.data []).map trimChars).filter (fun l => l ≠ [])

/-- Does `pat` occur at the head of `s`? -/
def hasPrefixCh : List Char → List Char → Bool
  | [], _ => true
  | _ :: _, [] => false
  | p :: ps, c :: cs => p = c && hasPrefixCh ps cs

/-- Substring test (JS `String.includes`). -/
def containsSub (pat : List Char) : List Char → Bool
  | [] => hasPrefixCh pat []
  | s@(_ :: rest) => hasPrefixCh pat s || containsSub pat rest

/-- Digit run to a natural number (the value `parseInt` returns on an
all-digit string). -/
def digitsToNat (ds : List Char) : Nat :=
  ds.foldl (fun a c => 10 * a + (c.toNat - '0'.toNat)) 0

/-- Attempt the regex `(\d+)\s*[xX]\s*(\d+)` anchored at the head of `s`.
Greedy maximal munch is equivalent to the backtracking semantics here:
shortening any greedy run makes the following mandatory character fail. -/
def matchRepDist (s : List Char) : Option (Nat × Nat) :=
  let d1 := s.takeWhile Char.isDigit
  let r1 := s.dropWhile Char.isDigit
  if d1.isEmpty then none
  else
    match r1.dropWhile isWS with
    | [] => none
    | c :: r3 =>
      if c = 'x' ∨ c = 'X' then
        let d2 := (r3.dropWhile isWS).takeWhile Char.isDigit
        if d2.isEmpty then none else some (digitsToNat d1, digitsToNat d2)
      else none

/-- Leftmost match of `(\d+)\s*[xX]\s*(\d+)` in a line
(JS `line.match(...)`, groups 1 and 2), scanning start positions from the
left as the regex engine does. -/
def firstRepDist : List Char → Option (Nat × Nat)
  | [] => none
  | s@(_ :: rest) =>
    match matchRepDist s with
    | some p => some p
    | none => firstRepDist rest

/-- The yards contributed by one line: product of the first rep-by-distance
match, or zero when the line has none. -/
def lineYards (line : List Char) : Nat :=
  match firstRepDist line with
  | some (r, d) => r * d
  | none => 0

/-- The section keys of `sectionCounts` in the handler, in declaration
order: `{ warmup: 0, preset: 0, mainset: 0, cooldown: 0 }`. -/
inductive Section where
  | warmup
  | preset
  | mainset
  | cooldown
deriving DecidableEq, Repr

/-- The stroke keys of `strokeCounts` in the handler, in declaration order:
`{ freestyle: 0, backstroke: 0, breaststroke: 0, butterfly: 0, kick: 0,
drill: 0 }`. -/
inductive Stroke where
  | freestyle
  | backstroke
  | breaststroke
  | butterfly
  | kick
  | drill
deriving DecidableEq, Repr

/-- Declaration order of the section keys (`Object.entries` order). -/
def sectionList : List Section :=
  [.warmup, .preset, .mainset, .cooldown]

/-- Declaration order of the stroke keys (`Object.entries` order). -/
def strokeList : List Stroke :=
  [.freestyle, .backstroke, .breaststroke, .butterfly, .kick, .drill]

/-- The block-header detection of the handler, applied to the lower-cased
line: first matching keyword wins, otherwise the current section is kept. -/
def sectionStep (cur : Section) (lower : List Char) : Section :=
  if containsSub "warm".data lower then .warmup
  else if containsSub "pre".data lower then .preset
  else if containsSub "main".data lower then .mainset
  else if containsSub "cool".data lower then .cooldown
  else cur

/-- The stroke detection of the handler, applied to the lower-cased line:
first matching keyword wins, default `freestyle`. -/
def strokeOf (lower : List Char) : Stroke :=
  if containsSub "back".data lower then .backstroke
  else if containsSub "breast".data lower then .breaststroke
  else if containsSub "fly".data lower then .butterfly
  else if containsSub "kick".data lower then .kick
  else if containsSub "drill".data lower then .drill
  else .freestyle

/-- One element pushed onto `sets` by the handler.  The source field name
`section` is a Lean keyword, so it is rendered `sect` here. -/
structure SetEntry where
  reps : Nat
  distancePerRep : Nat
  stroke : Stroke
  sect : Section
  yards : Nat
deriving DecidableEq, Repr

/-- Add `v` to the accumulator at key `k`
(`counts[k] = counts[k] + v` on a plain object). -/
def bump {α : Type} [DecidableEq α] (f : α → Nat) (k : α) (v : Nat) : α → Nat :=
  fun x => if x = k then f x + v else f x

/-- The mutable state of the handler loop over lines. -/
structure ParseState where
  totalYards : Nat
  sets : List SetEntry
  strokeCounts : Stroke → Nat
  sectionCounts : Section → Nat
  currentSection : Section

/-- The accumulators before the loop: zeros, `currentSection = 'mainset'`. -/
def initState : ParseState :=
  { totalYards := 0
    sets := []
    strokeCounts := fun _ => 0
    sectionCounts := fun _ => 0
    currentSection := .mainset }

/-- One iteration of the handler loop: update the section state from the
lower-cased line, then, when the line has a rep-by-distance match, add its
yards to the total, the stroke accumulator and the section accumulator and
append the set entry. -/
def processLine (st : ParseState) (line : List Char) : ParseState :=
  let lower := line.map Char.toLower
  let cur := sectionStep st.currentSection lower
  match firstRepDist line with
  | none => { st with currentSection := cur }
  | some (reps, dist) =>
    let yards := reps * dist
    let stroke := strokeOf lower
    { totalYards := st.totalYards + yards
      sets := st.sets ++ [⟨reps, dist, stroke, cur, yards⟩]
      strokeCounts := bump st.strokeCounts stroke yards
      sectionCounts := bump st.sectionCounts cur yards
      currentSection := cur }

/-- The whole parsing loop of the handler on an input text. -/
def parseWorkout (text : String) : ParseState :=
  (linesOf text).foldl processLine initState

/-- `strokePercentages`: entries with positive accumulator, in declaration
order, with value `val / totalYards` (exact rational division models the
JS float division for the properties studied here). -/
def strokePercentages (st : ParseState) : List (Stroke × ℚ) :=
  strokeList.filterMap fun s =>
    if 0 < st.strokeCounts s then
      some (s, (st.strokeCounts s : ℚ) / (st.totalYards : ℚ))
    else none

/-- `sectionPercentages`: entries with positive accumulator, in declaration
order, with value `val / totalYards`. -/
def sectionPercentages (st : ParseState) : List (Section × ℚ) :=
  sectionList.filterMap fun s =>
    if 0 < st.sectionCounts s then
      some (s, (st.sectionCounts s : ℚ) / (st.totalYards : ℚ))
    else none

/-- The JS object key of a stroke. -/
def Stroke.keyName : Stroke → String
  | .freestyle => "freestyle"
  | .backstroke => "backstroke"
  | .breaststroke => "breaststroke"
  | .butterfly => "butterfly"
  | .kick => "kick"
  | .drill => "drill"

/-- `Object.keys(strokePercentages)[0] || 'freestyle'` in the summary
template: the first stroke key with a positive accumulator, or the literal
fallback. -/
def summaryStrokeName (st : ParseState) : String :=
  match strokePercentages st with
  | [] => "freestyle"
  | (s, _) :: _ => s.keyName

/-- The `aiSummary` template string of the handler. -/
def mkAiSummary (st : ParseState) : String :=
  "Detected " ++ toString st.sets.length ++ " sets, total " ++
    toString st.totalYards ++ " yards. Most yardage from " ++
    summaryStrokeName st ++ "."

/-- The per-request values the handler draws from outside the input text:
`crypto.randomUUID()` and `new Date().toISOString()`. -/
structure Env where
  uuid : String
  now : String
deriving DecidableEq

/-- The JSON body sent by `res.status(200).json({...})` in the local-parser
handler.  The source field name `type` is a Lean keyword, rendered
`rtype`. -/
structure AnalyzeResponse where
  id : String
  date : String
  rtype : String
  durationMinutes : Nat
  distanceYards : Nat
  sets : List SetEntry
  aiSummary : String
  strokePercentages : List (Stroke × ℚ)
  sectionPercentages : List (Section × ℚ)
deriving DecidableEq

/-- The 200 response body of the local-parser handler as a function of the
input text and the per-request environment. -/
def respond (env : Env) (text : String) : AnalyzeResponse :=
  let st := parseWorkout text
  { id := env.uuid
    date := env.now
    rtype := "Swim Practice"
    durationMinutes := 90
    distanceYards := st.totalYards
    sets := st.sets
    aiSummary := mkAiSummary st
    strokePercentages := strokePercentages st
    sectionPercentages := sectionPercentages st }

/-- Outcome of one `fetch` attempt as observed by `fetchWithRetry`: a
resolved response with a status code, or a rejected promise (network
failure). -/
inductive Outcome where
  | ok (status : Nat)
  | exn
deriving DecidableEq, Repr

/-- Observable trace of one run of `fetchWithRetry`: the value returned to
the caller (or the exception propagated, as `Outcome.exn`), the index of
the last attempt made (attempts are numbered from 0, so `lastAttempt + 1`
fetches were performed), and the backoff delays awaited, in order. -/
structure RetryRun where
  result : Outcome
  lastAttempt : Nat
  delays : List Nat
deriving DecidableEq, Repr

/-- The loop of `fetchWithRetry` from attempt index `attempt` on, where
`o i` is the outcome of the i-th fetch.  Mirrors the source: inside the
loop a non-503 response returns, a 503 awaits `400 * 2 ^ attempt` and
retries, an exception rethrows on the last loop attempt and otherwise
retries without delay; after the loop one final fetch is returned as-is. -/
def retryLoop (o : Nat → Outcome) (retries attempt : Nat) : RetryRun :=
  if attempt < retries then
    match o attempt with
    | .ok s =>
      if s = 503 then
        let r := retryLoop o retries (attempt + 1)
        ⟨r.result, r.lastAttempt, 400 * 2 ^ attempt :: r.delays⟩
      else ⟨.ok s, attempt, []⟩
    | .exn =>
      if attempt = retries - 1 then ⟨.exn, attempt, []⟩
      else retryLoop o retries (attempt + 1)
  else ⟨o attempt, attempt, []⟩
termination_by retries - attempt

/-- `fetchWithRetry(url, options, retries = 3)` as a function of the
sequence of attempt outcomes. -/
def fetchWithRetry (o : Nat → Outcome) (retries : Nat := 3) : RetryRun :=
  retryLoop o retries 0

/-- JSON-ish response bodies the handlers produce. -/
inductive RespBody where
  | err (msg : String)
  | analysis (a : AnalyzeResponse)
  | diag
deriving DecidableEq

/-- An HTTP response: status code and body. -/
structure HttpResponse where
  status : Nat
  body : RespBody
deriving DecidableEq

/-- JS string falsiness for an optional string field: absent or empty. -/
def isFalsyStr : Option String → Bool
  | none => true
  | some s => s = ""

/-- Remove the first occurrence of `pat` from `s`
(JS `s.replace(pat, '')` with a plain-string pattern). -/
def removeFirstSub (pat : List Char) : List Char → List Char
  | [] => []
  | s@(c :: rest) =>
    if hasPrefixCh pat s then s.drop pat.length
    else c :: removeFirstSub pat rest

/-- JS `String.trim` on `String`. -/
def trimStr (s : String) : String :=
  ⟨trimChars s.data⟩

/-- A request as seen by the local-parser handler: method, the
`authorization` header, the `GITHUB_API_KEY` environment value, and the
`text` field of the JSON body (absent body collapses to an absent
field, as `req.body || {}` does). -/
structure LocalReq where
  method : String
  authorization : Option String
  envKey : Option String
  bodyText : Option String
deriving DecidableEq

/-- The local-parser handler of `api/analyze.js` up to its response,
parameterized by the analysis stage `analyze` (the parsing-and-response
code that runs only after validation) so that non-invocation on the error
paths is expressible. -/
def localHandler (analyze : String → AnalyzeResponse) (req : LocalReq) :
    HttpResponse :=
  if req.method ≠ "POST" then ⟨405, .err "Use POST"⟩
  else
    let auth := req.authorization.getD ""
    let token : String := ⟨removeFirstSub "Bearer ".data auth.data⟩
    match req.envKey with
    | none => ⟨401, .err "Unauthorized"⟩
    | some expected =>
      if expected = "" ∨ trimStr token ≠ trimStr expected then
        ⟨401, .err "Unauthorized"⟩
      else if isFalsyStr req.bodyText then ⟨400, .err "Missing text"⟩
      else ⟨200, .analysis (analyze (req.bodyText.getD ""))⟩

/-- A request as seen by the LLM-delegation handler of
`src/api/analyze.js`: method, the `GEMINI_API_KEY` environment value and
the `text` field of the JSON body. -/
structure GeminiReq where
  method : String
  apiKey : Option String
  bodyText : Option String
deriving DecidableEq

/-- The LLM-delegation handler of `src/api/analyze.js` up to its upstream
call: diagnostics on GET, 405 on other non-POST, 401 on missing key, 400
on missing/blank text (`!text || !text.trim()`), and otherwise the rest of
the `try` block, abstracted as `upstream` since only the validation prefix
is in scope here. -/
def analyzeHandler (upstream : String → HttpResponse) (req : GeminiReq) :
    HttpResponse :=
  if req.method = "GET" then ⟨200, .diag⟩
  else if req.method ≠ "POST" then ⟨405, .err "Method not allowed"⟩
  else if isFalsyStr req.apiKey then ⟨401, .err "Missing Gemini API key"⟩
  else if isFalsyStr req.bodyText ∨ trimStr (req.bodyText.getD "") = "" then
    ⟨400, .err "No text provided"⟩
  else upstream (req.bodyText.getD "")

/-- Modelled from the spec: rounding a ratio to 2 decimal places, the
operation the spec says is applied to percentages.  The code applies no
rounding, so this definition exists only for comparison. -/
def round2Spec (q : ℚ) : ℚ :=
  (⌊q * 100 + 1 / 2⌋ : ℚ) / 100

/-! Helper lemmas about the parsing loop. -/

theorem mem_sectionList (s : Section) : s ∈ sectionList := by
  cases s <;> simp [sectionList]

theorem mem_strokeList (s : Stroke) : s ∈ strokeList := by
  cases s <;> simp [strokeList]

theorem sum_map_bump_section (f : Section → Nat) (k : Section) (v : Nat) :
    (sectionList.map (bump f k v)).sum = (sectionList.map f).sum + v := by
  cases k <;> simp [sectionList, bump] <;> omega

theorem sum_map_bump_stroke (f : Stroke → Nat) (k : Stroke) (v : Nat) :
    (strokeList.map (bump f k v)).sum = (strokeList.map f).sum + v := by
  cases k <;> simp [strokeList, bump] <;> omega

theorem processLine_totalYards (st : ParseState) (l : List Char) :
    (processLine st l).totalYards = st.totalYards + lineYards l := by
  rcases h : firstRepDist l with _ | ⟨r, d⟩ <;>
    simp [processLine, lineYards, h]

theorem processLine_sectionSum (st : ParseState) (l : List Char) :
    (sectionList.map (processLine st l).sectionCounts).sum
      = (sectionList.map st.sectionCounts).sum + lineYards l := by
  rcases h : firstRepDist l with _ | ⟨r, d⟩ <;>
    simp [processLine, lineYards, h, sum_map_bump_section]

theorem processLine_strokeSum (st : ParseState) (l : List Char) :
    (strokeList.map (processLine st l).strokeCounts).sum
      = (strokeList.map st.strokeCounts).sum + lineYards l := by
  rcases h : firstRepDist l with _ | ⟨r, d⟩ <;>
    simp [processLine, lineYards, h, sum_map_bump_stroke]

theorem processLine_sets (st : ParseState) (l : List Char) :
    (processLine st l).sets
      = st.sets ++ ((firstRepDist l).toList.map fun p =>
          ⟨p.1, p.2, strokeOf (l.map Char.toLower),
            sectionStep st.currentSection (l.map Char.toLower), p.1 * p.2⟩) := by
  rcases h : firstRepDist l with _ | ⟨r, d⟩ <;> simp [processLine, h]

theorem foldl_totalYards (lines : List (List Char)) :
    ∀ st : ParseState,
      (lines.foldl processLine st).totalYards
        = st.totalYards + (lines.map lineYards).sum := by
  induction lines with
  | nil => intro st; simp
  | cons l ls ih =>
    intro st
    simp only [List.foldl_cons, List.map_cons, List.sum_cons]
    rw [ih, processLine_totalYards]
    omega

theorem foldl_sectionSum (lines : List (List Char)) :
    ∀ st : ParseState,
      (sectionList.map (lines.foldl processLine st).sectionCounts).sum
        = (sectionList.map st.sectionCounts).sum + (lines.map lineYards).sum := by
  induction lines with
  | nil => intro st; simp
  | cons l ls ih =>
    intro st
    simp only [List.foldl_cons, List.map_cons, List.sum_cons]
    rw [ih, processLine_sectionSum]
    omega

theorem foldl_strokeSum (lines : List (List Char)) :
    ∀ st : ParseState,
      (strokeList.map (lines.foldl processLine st).strokeCounts).sum
        = (strokeList.map st.strokeCounts).sum + (lines.map lineYards).sum := by
  induction lines with
  | nil => intro st; simp
  | cons l ls ih =>
    intro st
    simp only [List.foldl_cons, List.map_cons, List.sum_cons]
    rw [ih, processLine_strokeSum]
    omega

theorem foldl_sets_pairs (lines : List (List Char)) :
    ∀ st : ParseState,
      ((lines.foldl processLine st).sets.map fun e => (e.reps, e.distancePerRep))
        = (st.sets.map fun e => (e.reps, e.distancePerRep))
            ++ lines.filterMap firstRepDist := by
  induction lines with
  | nil => intro st; simp
  | cons l ls ih =>
    intro st
    rw [List.foldl_cons, ih, processLine_sets, List.filterMap_cons]
    rcases h : firstRepDist l with _ | p <;> simp [h]

theorem foldl_sets_yards (lines : List (List Char)) :
    ∀ st : ParseState,
      (∀ e ∈ st.sets, e.yards = e.reps * e.distancePerRep) →
      ∀ e ∈ (lines.foldl processLine st).sets,
        e.yards = e.reps * e.distancePerRep := by
  induction lines with
  | nil => intro st h; exact h
  | cons l ls ih =>
    intro st h
    rw [List.foldl_cons]
    refine ih _ ?_
    intro e he
    rw [processLine_sets] at he
    rcases List.mem_append.1 he with h1 | h2
    · exact h e h1
    · simp only [List.mem_map, Option.mem_toList, Option.mem_def] at h2
      obtain ⟨p, hp, rfl⟩ := h2
      rfl

/-- C1: for every input text, the total yardage equals the sum of
reps-times-distance over the first match of every line, and this total
also equals the sum of the per-section accumulators and the sum of the
per-stroke accumulators. -/
theorem totalYards_eq_match_sum_and_accumulator_sums (text : String) :
    (parseWorkout text).totalYards = ((linesOf text).map lineYards).sum
  ∧ (parseWorkout text).totalYards
      = (sectionList.map (parseWorkout text).sectionCounts).sum
  ∧ (parseWorkout text).totalYards
      = (strokeList.map (parseWorkout text).strokeCounts).sum := by
  refine ⟨?_, ?_, ?_⟩
  · rw [parseWorkout, foldl_totalYards]
    simp [initState]
  · rw [parseWorkout, foldl_totalYards, foldl_sectionSum]
    simp [initState, sectionList]
  · rw [parseWorkout, foldl_totalYards, foldl_strokeSum]
    simp [initState, strokeList]

/-- C2: on the six-line warmup/main/cooldown scenario the parser reports
1500 total yards, section accumulators Warmup 400, Main Set 1000,
Cooldown 100 (Preset 0), and a stroke-percentage map containing exactly
Freestyle at 1. -/
theorem scenario_warmup_main_cooldown :
    (parseWorkout "Warmup\n8x50 free\nMain Set\n10x100 free @1:30\nCooldown\n4x25 easy").totalYards = 1500
  ∧ (parseWorkout "Warmup\n8x50 free\nMain Set\n10x100 free @1:30\nCooldown\n4x25 easy").sectionCounts .warmup = 400
  ∧ (parseWorkout "Warmup\n8x50 free\nMain Set\n10x100 free @1:30\nCooldown\n4x25 easy").sectionCounts .mainset = 1000
  ∧ (parseWorkout "Warmup\n8x50 free\nMain Set\n10x100 free @1:30\nCooldown\n4x25 easy").sectionCounts .cooldown = 100
  ∧ (parseWorkout "Warmup\n8x50 free\nMain Set\n10x100 free @1:30\nCooldown\n4x25 easy").sectionCounts .preset = 0
  ∧ strokePercentages (parseWorkout "Warmup\n8x50 free\nMain Set\n10x100 free @1:30\nCooldown\n4x25 easy")
      = [(.freestyle, 1)] := by
  refine ⟨by decide, by decide, by decide, by decide, by decide, ?_⟩
  have h1 : (parseWorkout "Warmup\n8x50 free\nMain Set\n10x100 free @1:30\nCooldown\n4x25 easy").strokeCounts .freestyle = 1500 := by decide
  have h2 : (parseWorkout "Warmup\n8x50 free\nMain Set\n10x100 free @1:30\nCooldown\n4x25 easy").strokeCounts .backstroke = 0 := by decide
  have h3 : (parseWorkout "Warmup\n8x50 free\nMain Set\n10x100 free @1:30\nCooldown\n4x25 easy").strokeCounts .breaststroke = 0 := by decide
  have h4 : (parseWorkout "Warmup\n8x50 free\nMain Set\n10x100 free @1:30\nCooldown\n4x25 easy").strokeCounts .butterfly = 0 := by decide
  have h5 : (parseWorkout "Warmup\n8x50 free\nMain Set\n10x100 free @1:30\nCooldown\n4x25 easy").strokeCounts .kick = 0 := by decide
  have h6 : (parseWorkout "Warmup\n8x50 free\nMain Set\n10x100 free @1:30\nCooldown\n4x25 easy").strokeCounts .drill = 0 := by decide
  have ht : (parseWorkout "Warmup\n8x50 free\nMain Set\n10x100 free @1:30\nCooldown\n4x25 easy").totalYards = 1500 := by decide
  rw [strokePercentages, strokeList]
  simp only [List.filterMap_cons, h1, h2, h3, h4, h5, h6, ht]
  norm_num

/-- C3 counterexample: a line containing "pull" does not switch the
section — the parser keeps the current Main Set state and books the
following 4x50 there, and the code has no Pull (or Sprint Finisher)
section at all, contradicting the claimed "pull" and "sprint"
transitions. -/
theorem pull_line_does_not_switch_section :
    sectionStep Section.mainset "pull set".data = Section.mainset
  ∧ sectionStep Section.cooldown "sprint finisher".data = Section.cooldown
  ∧ (parseWorkout "Pull Set\n4x50").sectionCounts Section.mainset = 200
  ∧ (parseWorkout "Pull Set\n4x50").sectionCounts Section.warmup = 0
  ∧ (parseWorkout "Pull Set\n4x50").sectionCounts Section.preset = 0
  ∧ (parseWorkout "Pull Set\n4x50").sectionCounts Section.cooldown = 0 := by
  decide

/-- C3 (amended): the section classifier is a state machine with initial
state Main Set whose transition rule, on the lower-cased line with first
match winning, maps substring "warm" to Warmup, "pre" to Preset, "main" to
Main Set and "cool" to Cooldown; there are no "pull" or "sprint" keywords
or states.  A line matching no keyword leaves the section unchanged, and a
line containing both "warm" and a later keyword goes to Warmup because
"warm" is checked first. -/
theorem sectionStep_keyword_table (cur : Section) (l : List Char) :
    initState.currentSection = Section.mainset
  ∧ (containsSub "warm".data l = true → sectionStep cur l = Section.warmup)
  ∧ (containsSub "warm".data l = false → containsSub "pre".data l = true →
      sectionStep cur l = Section.preset)
  ∧ (containsSub "warm".data l = false → containsSub "pre".data l = false →
      containsSub "main".data l = true → sectionStep cur l = Section.mainset)
  ∧ (containsSub "warm".data l = false → containsSub "pre".data l = false →
      containsSub "main".data l = false → containsSub "cool".data l = true →
      sectionStep cur l = Section.cooldown)
  ∧ (containsSub "warm".data l = false → containsSub "pre".data l = false →
      containsSub "main".data l = false → containsSub "cool".data l = false →
      sectionStep cur l = cur) := by
  refine ⟨rfl, ?_, ?_, ?_, ?_, ?_⟩ <;>
    · intros
      simp_all [sectionStep]

/-- C3 witness: on the line "warmup then main set", which contains both
"warm" and "main", the classifier leaves the Cooldown state for Warmup. -/
theorem sectionStep_keyword_table_witness :
    containsSub "warm".data "warmup then main set".data = true
  ∧ containsSub "main".data "warmup then main set".data = true
  ∧ sectionStep Section.cooldown "warmup then main set".data = Section.warmup :=
  ⟨by decide, by decide,
    (sectionStep_keyword_table Section.cooldown "warmup then main set".data).2.1
      (by decide)⟩

/-- Membership in a percentage map built by filterMap over the key list:
a pair is present exactly when its accumulator is positive and its value
is the exact quotient. -/
theorem mem_pct {α : Type} [DecidableEq α] (l : List α) (c : α → Nat) (T : Nat)
    (s : α) (q : ℚ) (hs : s ∈ l) :
    ((s, q) ∈ l.filterMap fun a =>
        if 0 < c a then some (a, (c a : ℚ) / (T : ℚ)) else none)
      ↔ 0 < c s ∧ q = (c s : ℚ) / (T : ℚ) := by
  constructor
  · intro h
    obtain ⟨a, -, hf⟩ := List.mem_filterMap.1 h
    by_cases hc : 0 < c a
    · rw [if_pos hc] at hf
      simp only [Option.some.injEq, Prod.mk.injEq] at hf
      obtain ⟨rfl, rfl⟩ := hf
      exact ⟨hc, rfl⟩
    · rw [if_neg hc] at hf
      exact absurd hf (by simp)
  · rintro ⟨hc, rfl⟩
    exact List.mem_filterMap.2 ⟨s, hs, by rw [if_pos hc]⟩

/-- C4 counterexample: on "1x1 back\n2x1" the output backstroke percentage
is exactly 1/3, while rounding 1/3 to 2 decimal places gives 33/100, a
different value — the code performs no rounding. -/
theorem percentages_not_rounded :
    strokePercentages (parseWorkout "1x1 back\n2x1")
      = [(Stroke.freestyle, (2 : ℚ) / 3), (Stroke.backstroke, (1 : ℚ) / 3)]
  ∧ round2Spec ((1 : ℚ) / 3) = 33 / 100
  ∧ ((1 : ℚ) / 3) ≠ 33 / 100 := by
  refine ⟨?_, by norm_num [round2Spec], by norm_num⟩
  have h1 : (parseWorkout "1x1 back\n2x1").strokeCounts .freestyle = 2 := by decide
  have h2 : (parseWorkout "1x1 back\n2x1").strokeCounts .backstroke = 1 := by decide
  have h3 : (parseWorkout "1x1 back\n2x1").strokeCounts .breaststroke = 0 := by decide
  have h4 : (parseWorkout "1x1 back\n2x1").strokeCounts .butterfly = 0 := by decide
  have h5 : (parseWorkout "1x1 back\n2x1").strokeCounts .kick = 0 := by decide
  have h6 : (parseWorkout "1x1 back\n2x1").strokeCounts .drill = 0 := by decide
  have ht : (parseWorkout "1x1 back\n2x1").totalYards = 3 := by decide
  rw [strokePercentages, strokeList]
  simp only [List.filterMap_cons, h1, h2, h3, h4, h5, h6, ht]
  norm_num

/-- C4 (amended): for every input with positive total yardage, each
per-stroke and per-section percentage entry is exactly the accumulator
divided by the total yardage — no rounding is applied — and a key appears
in the map exactly when its accumulator is positive. -/
theorem percentages_exact_division (text : String)
    (hpos : 0 < (parseWorkout text).totalYards) :
    (∀ (s : Stroke) (q : ℚ),
        (s, q) ∈ strokePercentages (parseWorkout text)
          ↔ 0 < (parseWorkout text).strokeCounts s
            ∧ q = ((parseWorkout text).strokeCounts s : ℚ)
                / ((parseWorkout text).totalYards : ℚ))
  ∧ (∀ (s : Section) (q : ℚ),
        (s, q) ∈ sectionPercentages (parseWorkout text)
          ↔ 0 < (parseWorkout text).sectionCounts s
            ∧ q = ((parseWorkout text).sectionCounts s : ℚ)
                / ((parseWorkout text).totalYards : ℚ)) := by
  constructor
  · intro s q
    exact mem_pct strokeList (parseWorkout text).strokeCounts
      (parseWorkout text).totalYards s q (mem_strokeList s)
  · intro s q
    exact mem_pct sectionList (parseWorkout text).sectionCounts
      (parseWorkout text).totalYards s q (mem_sectionList s)

/-- C4 witness: the exact-division characterization applied to the
concrete input "1x1 back\n2x1", whose total yardage 3 is positive. -/
theorem percentages_exact_division_witness :
    0 < (parseWorkout "1x1 back\n2x1").totalYards
  ∧ ((∀ (s : Stroke) (q : ℚ),
        (s, q) ∈ strokePercentages (parseWorkout "1x1 back\n2x1")
          ↔ 0 < (parseWorkout "1x1 back\n2x1").strokeCounts s
            ∧ q = ((parseWorkout "1x1 back\n2x1").strokeCounts s : ℚ)
                / ((parseWorkout "1x1 back\n2x1").totalYards : ℚ))
    ∧ (∀ (s : Section) (q : ℚ),
        (s, q) ∈ sectionPercentages (parseWorkout "1x1 back\n2x1")
          ↔ 0 < (parseWorkout "1x1 back\n2x1").sectionCounts s
            ∧ q = ((parseWorkout "1x1 back\n2x1").sectionCounts s : ℚ)
                / ((parseWorkout "1x1 back\n2x1").totalYards : ℚ))) :=
  ⟨by decide, percentages_exact_division "1x1 back\n2x1" (by decide)⟩

/-- C5: when the total yardage is 0 every accumulator is 0, so both
percentage maps are computed without any division (no entry passes the
positivity guard), are empty, and every value they return is 0. -/
theorem zero_total_gives_empty_percentages (text : String)
    (h : (parseWorkout text).totalYards = 0) :
    strokePercentages (parseWorkout text) = []
  ∧ sectionPercentages (parseWorkout text) = []
  ∧ (∀ p ∈ strokePercentages (parseWorkout text), p.2 = 0)
  ∧ (∀ p ∈ sectionPercentages (parseWorkout text), p.2 = 0) := by
  have hT := foldl_totalYards (linesOf text) initState
  have hS := foldl_sectionSum (linesOf text) initState
  have hK := foldl_strokeSum (linesOf text) initState
  have i1 : (sectionList.map initState.sectionCounts).sum = 0 := by decide
  have i2 : (strokeList.map initState.strokeCounts).sum = 0 := by decide
  have i3 : initState.totalYards = 0 := rfl
  rw [i3] at hT
  rw [i1] at hS
  rw [i2] at hK
  simp only [parseWorkout] at h ⊢
  set st := (linesOf text).foldl processLine initState with hst
  simp only [sectionList, List.map_cons, List.map_nil, List.sum_cons,
    List.sum_nil] at hS
  simp only [strokeList, List.map_cons, List.map_nil, List.sum_cons,
    List.sum_nil] at hK
  have hw : st.sectionCounts .warmup = 0 := by omega
  have hp : st.sectionCounts .preset = 0 := by omega
  have hm : st.sectionCounts .mainset = 0 := by omega
  have hc : st.sectionCounts .cooldown = 0 := by omega
  have g1 : st.strokeCounts .freestyle = 0 := by omega
  have g2 : st.strokeCounts .backstroke = 0 := by omega
  have g3 : st.strokeCounts .breaststroke = 0 := by omega
  have g4 : st.strokeCounts .butterfly = 0 := by omega
  have g5 : st.strokeCounts .kick = 0 := by omega
  have g6 : st.strokeCounts .drill = 0 := by omega
  have e1 : strokePercentages st = [] := by
    rw [strokePercentages, strokeList]
    simp [g1, g2, g3, g4, g5, g6]
  have e2 : sectionPercentages st = [] := by
    rw [sectionPercentages, sectionList]
    simp [hw, hp, hm, hc]
  exact ⟨e1, e2, by simp [e1], by simp [e2]⟩

/-- C5 witness: a line with no rep-by-distance pattern yields total
yardage 0, and the safety property holds there. -/
theorem zero_total_gives_empty_percentages_witness :
    (parseWorkout "easy swim, no numbers").totalYards = 0
  ∧ (strokePercentages (parseWorkout "easy swim, no numbers") = []
    ∧ sectionPercentages (parseWorkout "easy swim, no numbers") = []
    ∧ (∀ p ∈ strokePercentages (parseWorkout "easy swim, no numbers"), p.2 = 0)
    ∧ (∀ p ∈ sectionPercentages (parseWorkout "easy swim, no numbers"), p.2 = 0)) :=
  ⟨by decide, zero_total_gives_empty_percentages "easy swim, no numbers" (by decide)⟩

/-- C6 counterexample: on the same input text, two requests with distinct
per-request id and date values produce unequal response bodies, because
the body embeds the fresh UUID and timestamp. -/
theorem response_differs_across_requests :
    respond ⟨"7d3a", "2025-10-10T12:00:00Z"⟩ "8x50 free"
      ≠ respond ⟨"9f21", "2025-10-11T09:30:00Z"⟩ "8x50 free" := by
  intro h
  exact absurd (congrArg AnalyzeResponse.id h) (by decide)

/-- C6 (amended): every response field other than the per-request `id` and
`date` — type, duration, distance, sets, summary and both percentage maps
— is a pure function of the input text: two runs on equal input agree on
all of them regardless of the request environment. -/
theorem analysis_fields_pure (e1 e2 : Env) (text : String) :
    (respond e1 text).rtype = (respond e2 text).rtype
  ∧ (respond e1 text).durationMinutes = (respond e2 text).durationMinutes
  ∧ (respond e1 text).distanceYards = (respond e2 text).distanceYards
  ∧ (respond e1 text).sets = (respond e2 text).sets
  ∧ (respond e1 text).aiSummary = (respond e2 text).aiSummary
  ∧ (respond e1 text).strokePercentages = (respond e2 text).strokePercentages
  ∧ (respond e1 text).sectionPercentages = (respond e2 text).sectionPercentages :=
  ⟨rfl, rfl, rfl, rfl, rfl, rfl, rfl⟩

/-- C7: the summary sentence does not name the stroke with the largest
accumulator — it names the first stroke key with a nonzero accumulator in
declaration order.  Here backstroke has 800 yards against freestyle's 400,
yet the sentence says "Most yardage from freestyle". -/
theorem summary_names_first_nonzero_stroke :
    summaryStrokeName (parseWorkout "4x100\n8x100 back") = "freestyle"
  ∧ (parseWorkout "4x100\n8x100 back").strokeCounts Stroke.freestyle = 400
  ∧ (parseWorkout "4x100\n8x100 back").strokeCounts Stroke.backstroke = 800
  ∧ (400 : Nat) < 800 := by
  refine ⟨?_, by decide, by decide, by decide⟩
  have h1 : (parseWorkout "4x100\n8x100 back").strokeCounts .freestyle = 400 := by decide
  rw [summaryStrokeName, strokePercentages, strokeList]
  simp only [List.filterMap_cons, h1]
  norm_num [Stroke.keyName]

/-! Step lemmas unfolding one iteration of the retry loop. -/

theorem retryLoop_stop (o : Nat → Outcome) (retries attempt : Nat)
    (h : ¬ attempt < retries) :
    retryLoop o retries attempt = ⟨o attempt, attempt, []⟩ := by
  rw [retryLoop.eq_def]
  simp [h]

theorem retryLoop_ok (o : Nat → Outcome) (retries attempt : Nat)
    (h : attempt < retries) (s : Nat) (hs : o attempt = .ok s)
    (h503 : s ≠ 503) :
    retryLoop o retries attempt = ⟨.ok s, attempt, []⟩ := by
  rw [retryLoop.eq_def]
  simp [h, hs, h503]

theorem retryLoop_503 (o : Nat → Outcome) (retries attempt : Nat)
    (h : attempt < retries) (hs : o attempt = .ok 503) :
    retryLoop o retries attempt =
      ⟨(retryLoop o retries (attempt + 1)).result,
        (retryLoop o retries (attempt + 1)).lastAttempt,
        400 * 2 ^ attempt :: (retryLoop o retries (attempt + 1)).delays⟩ := by
  rw [retryLoop.eq_def]
  simp [h, hs]

theorem retryLoop_exn_last (o : Nat → Outcome) (retries attempt : Nat)
    (h : attempt < retries) (hs : o attempt = .exn)
    (hl : attempt = retries - 1) :
    retryLoop o retries attempt = ⟨.exn, attempt, []⟩ := by
  rw [retryLoop.eq_def, if_pos h, hs]
  dsimp only
  rw [if_pos hl]

theorem retryLoop_exn_retry (o : Nat → Outcome) (retries attempt : Nat)
    (h : attempt < retries) (hs : o attempt = .exn)
    (hl : attempt ≠ retries - 1) :
    retryLoop o retries attempt = retryLoop o retries (attempt + 1) := by
  rw [retryLoop.eq_def]
  simp [h, hs, hl]

/-- Invariant of the retry loop from any attempt index: the last attempt
stays within the loop bound plus the final fetch, the returned value is
the outcome of the last attempt, every earlier attempt ended in 503 or an
exception, and the delays awaited are exactly `400 * 2 ^ i` for the
attempts `i` that ended in 503. -/
theorem retryLoop_props (o : Nat → Outcome) (retries : Nat) :
    ∀ (fuel attempt : Nat), retries - attempt = fuel → attempt ≤ retries →
      attempt ≤ (retryLoop o retries attempt).lastAttempt
    ∧ (retryLoop o retries attempt).lastAttempt ≤ retries
    ∧ (retryLoop o retries attempt).result
        = o (retryLoop o retries attempt).lastAttempt
    ∧ (∀ i, attempt ≤ i → i < (retryLoop o retries attempt).lastAttempt →
        o i = Outcome.ok 503 ∨ o i = Outcome.exn)
    ∧ (retryLoop o retries attempt).delays
        = (List.range' attempt
            ((retryLoop o retries attempt).lastAttempt - attempt)).filterMap
            (fun i => if o i = Outcome.ok 503 then some (400 * 2 ^ i)
              else none) := by
  intro fuel
  induction fuel with
  | zero =>
    intro attempt hf ha
    have heq : attempt = retries := by omega
    rw [retryLoop_stop o retries attempt (by omega)]
    dsimp only
    refine ⟨Nat.le_refl _, by omega, rfl, ?_, ?_⟩
    · intro i h1 h2
      omega
    · simp
  | succ fuel ih =>
    intro attempt hf ha
    have hlt : attempt < retries := by omega
    rcases ho : o attempt with s | _
    · by_cases hs : s = 503
      · subst hs
        obtain ⟨ih1, ih2, ih3, ih4, ih5⟩ :=
          ih (attempt + 1) (by omega) (by omega)
        rw [retryLoop_503 o retries attempt hlt ho]
        dsimp only
        refine ⟨by omega, by simpa using ih2, by simpa using ih3, ?_, ?_⟩
        · intro i h1 h2
          rcases Nat.eq_or_lt_of_le h1 with h3 | h3
          · exact Or.inl (h3 ▸ ho)
          · exact ih4 i h3 (by simpa using h2)
        · have hsplit :
              (retryLoop o retries (attempt + 1)).lastAttempt - attempt
                = ((retryLoop o retries (attempt + 1)).lastAttempt
                    - (attempt + 1)) + 1 := by omega
          simp only [hsplit, List.range'_succ, List.filterMap_cons, ho,
            if_pos rfl]
          simpa using ih5
      · rw [retryLoop_ok o retries attempt hlt s ho hs]
        dsimp only
        refine ⟨Nat.le_refl _, by omega, ho.symm, ?_, ?_⟩
        · intro i h1 h2
          omega
        · simp
    · by_cases hl : attempt = retries - 1
      · rw [retryLoop_exn_last o retries attempt hlt ho hl]
        dsimp only
        refine ⟨Nat.le_refl _, by omega, ho.symm, ?_, ?_⟩
        · intro i h1 h2
          omega
        · simp
      · obtain ⟨ih1, ih2, ih3, ih4, ih5⟩ :=
          ih (attempt + 1) (by omega) (by omega)
        rw [retryLoop_exn_retry o retries attempt hlt ho hl]
        refine ⟨by omega, ih2, ih3, ?_, ?_⟩
        · intro i h1 h2
          rcases Nat.eq_or_lt_of_le h1 with h3 | h3
          · exact Or.inr (h3 ▸ ho)
          · exact ih4 i h3 h2
        · have hsplit :
              (retryLoop o retries (attempt + 1)).lastAttempt - attempt
                = ((retryLoop o retries (attempt + 1)).lastAttempt
                    - (attempt + 1)) + 1 := by omega
          rw [hsplit, List.range'_succ, List.filterMap_cons]
          simp only [ho]
          rw [ih5]
          simp

/-- C8: with the default of 3 loop attempts, `fetchWithRetry` performs at
most 4 fetches (last attempt index at most 3); the outcome of the final
attempt — success with any status, error response, or exception — is
returned to the caller unchanged; a further attempt is made only after a
503 response or a network exception; and the backoff delays awaited are
exactly 400ms doubled per attempt index, one for each 503 encountered
inside the loop. -/
theorem fetchWithRetry_bounded_final_outcome (o : Nat → Outcome) :
    (fetchWithRetry o).lastAttempt ≤ 3
  ∧ (fetchWithRetry o).result = o (fetchWithRetry o).lastAttempt
  ∧ (∀ i, i < (fetchWithRetry o).lastAttempt →
      o i = Outcome.ok 503 ∨ o i = Outcome.exn)
  ∧ (fetchWithRetry o).delays
      = (List.range (fetchWithRetry o).lastAttempt).filterMap
          (fun i => if o i = Outcome.ok 503 then some (400 * 2 ^ i)
            else none) := by
  obtain ⟨h1, h2, h3, h4, h5⟩ := retryLoop_props o 3 3 0 rfl (by omega)
  refine ⟨h2, h3, ?_, ?_⟩
  · intro i hi
    exact h4 i (Nat.zero_le i) hi
  · rw [List.range_eq_range']
    simpa using h5

/-- C8 witness: a 503 on the first attempt followed by a 200 gives two
attempts, one 400ms delay, and the 200 returned. -/
theorem fetchWithRetry_bounded_final_outcome_witness :
    (fetchWithRetry (fun n => if n = 0 then Outcome.ok 503 else Outcome.ok 200)).lastAttempt ≤ 3
  ∧ (fetchWithRetry (fun n => if n = 0 then Outcome.ok 503 else Outcome.ok 200)).result
      = (fun n => if n = 0 then Outcome.ok 503 else Outcome.ok 200)
          (fetchWithRetry (fun n => if n = 0 then Outcome.ok 503 else Outcome.ok 200)).lastAttempt
  ∧ (∀ i, i < (fetchWithRetry (fun n => if n = 0 then Outcome.ok 503 else Outcome.ok 200)).lastAttempt →
      (fun n => if n = 0 then Outcome.ok 503 else Outcome.ok 200) i = Outcome.ok 503
      ∨ (fun n => if n = 0 then Outcome.ok 503 else Outcome.ok 200) i = Outcome.exn)
  ∧ (fetchWithRetry (fun n => if n = 0 then Outcome.ok 503 else Outcome.ok 200)).delays
      = (List.range (fetchWithRetry (fun n => if n = 0 then Outcome.ok 503 else Outcome.ok 200)).lastAttempt).filterMap
          (fun i => if (fun n => if n = 0 then Outcome.ok 503 else Outcome.ok 200) i = Outcome.ok 503
            then some (400 * 2 ^ i) else none) :=
  fetchWithRetry_bounded_final_outcome
    (fun n => if n = 0 then Outcome.ok 503 else Outcome.ok 200)

/-- C9 counterexample: an authorized POST to the local-parser handler with
an empty `text` does return 400, but with body error "Missing text", not
the claimed "No text provided". -/
theorem local_handler_missing_text_message :
    localHandler (fun _ => respond ⟨"u", "d"⟩ "")
        ⟨"POST", some "Bearer k", some "k", some ""⟩
      = ⟨400, RespBody.err "Missing text"⟩
  ∧ RespBody.err "Missing text" ≠ RespBody.err "No text provided" := by
  exact ⟨rfl, by decide⟩

/-- C9 (amended): for every POST request that passes the earlier checks
and whose `text` is missing or empty, the handler returns 400 immediately
and the parser (or upstream call) is never invoked — the response does not
depend on it.  The LLM-delegation handler answers
`{"error": "No text provided"}` (also for whitespace-only text), while the
local-parser handler answers `{"error": "Missing text"}`. -/
theorem blank_text_yields_400_without_invocation
    (a1 a2 : String → AnalyzeResponse) (u1 u2 : String → HttpResponse)
    (auth : Option String) (k : String) (hk2 : k ≠ "")
    (hk3 : trimStr ⟨removeFirstSub "Bearer ".data (auth.getD "").data⟩
      = trimStr k)
    (ltext : Option String) (htext : isFalsyStr ltext = true)
    (gkey : Option String) (gk : isFalsyStr gkey = false)
    (gtext : Option String)
    (gt : isFalsyStr gtext = true ∨ trimStr (gtext.getD "") = "") :
    localHandler a1 ⟨"POST", auth, some k, ltext⟩
        = ⟨400, RespBody.err "Missing text"⟩
  ∧ localHandler a1 ⟨"POST", auth, some k, ltext⟩
        = localHandler a2 ⟨"POST", auth, some k, ltext⟩
  ∧ analyzeHandler u1 ⟨"POST", gkey, gtext⟩
        = ⟨400, RespBody.err "No text provided"⟩
  ∧ analyzeHandler u1 ⟨"POST", gkey, gtext⟩
        = analyzeHandler u2 ⟨"POST", gkey, gtext⟩ := by
  have hloc : ∀ a : String → AnalyzeResponse,
      localHandler a ⟨"POST", auth, some k, ltext⟩
        = ⟨400, RespBody.err "Missing text"⟩ := by
    intro a
    unfold localHandler
    dsimp only
    rw [if_neg (fun h => h rfl)]
    have hcond : ¬(k = "" ∨
        trimStr ⟨removeFirstSub "Bearer ".data (auth.getD "").data⟩
          ≠ trimStr k) := by
      rintro (h | h)
      · exact hk2 h
      · exact h hk3
    rw [if_neg hcond, if_pos htext]
  have hgem : ∀ u : String → HttpResponse,
      analyzeHandler u ⟨"POST", gkey, gtext⟩
        = ⟨400, RespBody.err "No text provided"⟩ := by
    intro u
    unfold analyzeHandler
    dsimp only
    rw [if_neg (by decide : ¬("POST" : String) = "GET")]
    rw [if_neg (fun h => h rfl)]
    rw [if_neg (by simp [gk] : ¬isFalsyStr gkey = true)]
    rw [if_pos gt]
  exact ⟨hloc a1, (hloc a1).trans (hloc a2).symm,
    hgem u1, (hgem u1).trans (hgem u2).symm⟩

/-- C9 witness: concrete authorized requests with empty (local) and
whitespace-only (LLM) text, under two different parser and upstream
functions each. -/
theorem blank_text_yields_400_without_invocation_witness :
    localHandler (fun _ => respond ⟨"u", "d"⟩ "x")
        ⟨"POST", some "Bearer secret", some "secret", some ""⟩
        = ⟨400, RespBody.err "Missing text"⟩
  ∧ localHandler (fun _ => respond ⟨"u", "d"⟩ "x")
        ⟨"POST", some "Bearer secret", some "secret", some ""⟩
        = localHandler (fun t => respond ⟨"v", "e"⟩ t)
            ⟨"POST", some "Bearer secret", some "secret", some ""⟩
  ∧ analyzeHandler (fun _ => ⟨200, RespBody.diag⟩)
        ⟨"POST", some "key", some " "⟩
        = ⟨400, RespBody.err "No text provided"⟩
  ∧ analyzeHandler (fun _ => ⟨200, RespBody.diag⟩)
        ⟨"POST", some "key", some " "⟩
        = analyzeHandler (fun _ => ⟨503, RespBody.diag⟩)
            ⟨"POST", some "key", some " "⟩ :=
  blank_text_yields_400_without_invocation
    (fun _ => respond ⟨"u", "d"⟩ "x") (fun t => respond ⟨"v", "e"⟩ t)
    (fun _ => ⟨200, RespBody.diag⟩) (fun _ => ⟨503, RespBody.diag⟩)
    (some "Bearer secret") "secret" (by decide) (by decide)
    (some "") (by decide) (some "key") (by decide)
    (some " ") (Or.inr (by decide))

/-- Sum of products over the matched pairs equals the per-line yardage
sum. -/
theorem filterMap_mul_sum (lines : List (List Char)) :
    ((lines.filterMap firstRepDist).map fun p => p.1 * p.2).sum
      = (lines.map lineYards).sum := by
  induction lines with
  | nil => simp
  | cons l ls ih =>
    rw [List.filterMap_cons, List.map_cons, List.sum_cons]
    rcases h : firstRepDist l with _ | ⟨r, d⟩
    · simp [lineYards, h, ih]
    · simp [lineYards, h, ih]

/-- C10: each element of `sets` records the two integers of the first
rep-by-distance pattern of its line (elements in input-line order, one per
matched line), satisfies yards = reps times distancePerRep, carries a
stroke from the fixed stroke set and a section from the fixed section set,
and the response's `distanceYards` equals the sum of the `yards` fields of
the whole array. -/
theorem sets_entries_from_line_matches (text : String) :
    ((parseWorkout text).sets.map fun e => (e.reps, e.distancePerRep))
        = (linesOf text).filterMap firstRepDist
  ∧ (∀ e ∈ (parseWorkout text).sets, e.yards = e.reps * e.distancePerRep)
  ∧ (∀ e ∈ (parseWorkout text).sets,
      e.stroke ∈ strokeList ∧ e.sect ∈ sectionList)
  ∧ (∀ env : Env, (respond env text).distanceYards
      = ((respond env text).sets.map SetEntry.yards).sum) := by
  have hpairs : ((parseWorkout text).sets.map fun e => (e.reps, e.distancePerRep))
      = (linesOf text).filterMap firstRepDist := by
    simpa [parseWorkout, initState] using
      foldl_sets_pairs (linesOf text) initState
  have hyards : ∀ e ∈ (parseWorkout text).sets,
      e.yards = e.reps * e.distancePerRep :=
    foldl_sets_yards (linesOf text) initState (by simp [initState])
  refine ⟨hpairs, hyards, ?_, ?_⟩
  · intro e _
    exact ⟨mem_strokeList e.stroke, mem_sectionList e.sect⟩
  · intro env
    show (parseWorkout text).totalYards
      = ((parseWorkout text).sets.map SetEntry.yards).sum
    have h1 : (parseWorkout text).sets.map SetEntry.yards
        = (parseWorkout text).sets.map fun e => e.reps * e.distancePerRep :=
      List.map_congr_left hyards
    have h2 : ((parseWorkout text).sets.map fun e => e.reps * e.distancePerRep)
        = (((parseWorkout text).sets.map fun e => (e.reps, e.distancePerRep)).map
            fun p => p.1 * p.2) := by
      rw [List.map_map]
      rfl
    rw [h1, h2, hpairs, filterMap_mul_sum]
    simpa [parseWorkout, initState] using
      foldl_totalYards (linesOf text) initState

/-- C10 witness: the characterization instantiated at the concrete input
"3x100 kick". -/
theorem sets_entries_from_line_matches_witness :
    ((parseWorkout "3x100 kick").sets.map fun e => (e.reps, e.distancePerRep))
        = (linesOf "3x100 kick").filterMap firstRepDist
  ∧ (∀ e ∈ (parseWorkout "3x100 kick").sets,
      e.yards = e.reps * e.distancePerRep)
  ∧ (∀ e ∈ (parseWorkout "3x100 kick").sets,
      e.stroke ∈ strokeList ∧ e.sect ∈ sectionList)
  ∧ (∀ env : Env, (respond env "3x100 kick").distanceYards
      = ((respond env "3x100 kick").sets.map SetEntry.yards).sum) :=
  sets_entries_from_line_matches "3x100 kick"

end SwimJournal
